import Mathlib

/-!
Verification of the CortexAI Phase-2 tabular pipeline
(`Phase2_Pipeline/pipeline/{schema,cleaner,trainer,quality_analyzer}.py`)
against its natural-language specification.

The pipeline is shallowly embedded: a pandas `DataFrame` becomes a list of
named, dtyped columns of cells; every pipeline routine becomes an executable
Lean function mirroring the Python source line by line.  Floating-point
numbers are modelled by rationals; pandas/NumPy library primitives that the
source calls (quantile, median, mode, skew, `pd.to_datetime` parsing,
percent formatting) are given explicit executable models, documented at
their definitions.
-/

namespace CortexAI

/-- A single pandas cell: missing (`NaN`/`NaT`), a numeric value (floats are
modelled by rationals), a string, or a parsed datetime (payload kept as the
original text; only parsedness matters to the pipeline). -/
inductive Cell where
  | na : Cell
  | num : ℚ → Cell
  | str : String → Cell
  | date : String → Cell
deriving DecidableEq, Repr

/-- Pandas storage dtype of a column, as consulted by
`select_dtypes(include=["int64","float64"])` / `include=["object"]`.
`dt64` is the `datetime64` dtype produced by `pd.to_datetime` casting. -/
inductive Dtype where
  | int64 : Dtype
  | float64 : Dtype
  | obj : Dtype
  | dt64 : Dtype
deriving DecidableEq, Repr

/-- A named dataframe column. -/
structure Column where
  name : String
  dtype : Dtype
  cells : List Cell
deriving DecidableEq, Repr

/-- A dataframe: ordered list of columns. -/
abbrev Df := List Column

/-- `len(df)`: number of rows (all columns of a well-formed frame have equal
length; the first column's length is used). -/
def nRows (df : Df) : ℕ :=
  match df with
  | [] => 0
  | c :: _ => c.cells.length

/-- Column labels, in order (`df.columns`). -/
def columnNames (df : Df) : List String :=
  df.map (fun c => c.name)

/-- `df[name]`: first column with the given label. -/
def getCol? (df : Df) (name : String) : Option Column :=
  df.find? (fun c => c.name == name)

/-- Cells that are not missing (`dropna` on a series). -/
def obsCells (cells : List Cell) : List Cell :=
  cells.filter (fun x => x ≠ Cell.na)

/-- Numeric values among a column's cells (the values pandas aggregations
such as `median`/`quantile` operate on, skipping `NaN`). -/
def obsVals (cells : List Cell) : List ℚ :=
  cells.filterMap (fun x => match x with | Cell.num q => some q | _ => none)

/-- Number of missing cells (`series.isna().sum()`). -/
def naCount (cells : List Cell) : ℕ :=
  (cells.filter (fun x => x = Cell.na)).length

/-- `series.nunique()`: distinct non-missing values. -/
def cellNunique (cells : List Cell) : ℕ :=
  (obsCells cells).dedup.length

/-- `series.isna().mean()` (0 for an empty column, a harmless model of
pandas' NaN-on-empty since every comparison with NaN is false). -/
def missingRatio (cells : List Cell) : ℚ :=
  if cells.length = 0 then 0 else (naCount cells : ℚ) / (cells.length : ℚ)

/-- Whether a dtype is numeric (`int64` or `float64`), as selected by
`select_dtypes(include=["int64","float64"])` and tested by
`pd.api.types.is_numeric_dtype`. -/
def isNumericDtype (d : Dtype) : Bool :=
  d = Dtype.int64 ∨ d = Dtype.float64

/-- Model of `pd.to_datetime` single-value parsing success: a string parses
iff it has the shape `YYYY-MM-DD` (ten characters, digits around two
dashes).  Non-string cells do not parse. -/
def dateLike (s : String) : Bool :=
  match s.toList with
  | [a, b, c, d, e, f, g, h, i, j] =>
      a.isDigit && b.isDigit && c.isDigit && d.isDigit && e = '-' &&
      f.isDigit && g.isDigit && h = '-' && i.isDigit && j.isDigit
  | _ => false

/-- An integral rational (`x % 1 == 0` in pandas). -/
def isIntegral (q : ℚ) : Bool :=
  q.den = 1

-- --------------------------------------------------
-- SchemaDetector (pipeline/schema.py)
-- --------------------------------------------------

/-- The schema mapping returned by `SchemaDetector.detect`. -/
structure Schema where
  target : String
  task_type : String
  numeric : List String
  ordinal : List String
  categorical : List String
  high_missing_categorical : List String
  high_cardinality_columns : List String
  id_columns : List String
  datetime : List String
  warnings : List String
deriving DecidableEq, Repr

/-- `SchemaDetector._detect_numeric_columns`. -/
def detect_numeric_columns (df : Df) : List String :=
  (df.filter (fun c => isNumericDtype c.dtype)).map (fun c => c.name)

/-- `SchemaDetector._detect_categorical_columns`. -/
def detect_categorical_columns (df : Df) : List String :=
  (df.filter (fun c => c.dtype = Dtype.obj)).map (fun c => c.name)

/-- One object column's datetime test: `pd.to_datetime(col, errors="raise")`
succeeds iff every non-missing cell parses (missing cells become `NaT`
without raising); the column is accepted when additionally
`parsed.notna().mean() > 0.5`, i.e. the parsed (non-missing) fraction
exceeds one half. -/
def datetimeParseOk (c : Column) : Bool :=
  (c.cells.all (fun x => match x with
    | Cell.na => true
    | Cell.str s => dateLike s
    | _ => false)) &&
  (if c.cells.length = 0 then false
   else ((obsCells c.cells).length : ℚ) / (c.cells.length : ℚ) > (1 : ℚ) / 2)

/-- `SchemaDetector._detect_datetime_columns`. -/
def detect_datetime_columns (df : Df) : List String :=
  (df.filter (fun c => c.dtype = Dtype.obj && datetimeParseOk c)).map (fun c => c.name)

/-- ASCII lowercase of one character (Python `str.lower` on the ASCII
column names the identifier regexes are matched against). -/
def lowerChar (ch : Char) : Char :=
  match ch with
  | 'A' => 'a' | 'B' => 'b' | 'C' => 'c' | 'D' => 'd' | 'E' => 'e'
  | 'F' => 'f' | 'G' => 'g' | 'H' => 'h' | 'I' => 'i' | 'J' => 'j'
  | 'K' => 'k' | 'L' => 'l' | 'M' => 'm' | 'N' => 'n' | 'O' => 'o'
  | 'P' => 'p' | 'Q' => 'q' | 'R' => 'r' | 'S' => 's' | 'T' => 't'
  | 'U' => 'u' | 'V' => 'v' | 'W' => 'w' | 'X' => 'x' | 'Y' => 'y'
  | 'Z' => 'z' | c => c

/-- `col.lower()`. -/
def strLower (s : String) : String :=
  String.mk (s.data.map lowerChar)

/-- Whether `t` is a suffix of `s` (what an unanchored `re.search` of an
`...$`-anchored pattern tests). -/
def strSuffix (s t : String) : Bool :=
  t.data.length ≤ s.data.length &&
    s.data.drop (s.data.length - t.data.length) == t.data

/-- The six `id_patterns` regexes of `_detect_id_columns`, applied with
`re.search` to the lowercased name: `^id$`, `_id$`, `id$`, `^uuid$`,
`^index$`, `^s\.?no$` (the `\.?` makes the dot optional). -/
def matches_id_pattern (s : String) : Bool :=
  s == "id" || strSuffix s "_id" || strSuffix s "id" || s == "uuid" ||
  s == "index" || s == "sno" || s == "s.no"

/-- `SchemaDetector._detect_id_columns` (name-based only). -/
def detect_id_columns (df : Df) : List String :=
  (df.filter (fun c => matches_id_pattern (strLower c.name))).map (fun c => c.name)

/-- `SchemaDetector._detect_high_cardinality_columns`: object columns whose
distinct-value ratio exceeds `max(0.3, 10 / n_rows)`. -/
def detect_high_cardinality_columns (df : Df) : List String :=
  (df.filter (fun c => c.dtype = Dtype.obj &&
      (cellNunique c.cells : ℚ) / (nRows df : ℚ) >
        max ((3 : ℚ) / 10) ((10 : ℚ) / (nRows df : ℚ)))).map (fun c => c.name)

/-- Ordinal test of one numeric column inside `_detect_ordinal_columns`:
after `dropna`, the series is non-empty, has at most 10 distinct values,
and every value is integral. -/
def ordinalSeriesOk (c : Column) : Bool :=
  let obs := obsCells c.cells
  !obs.isEmpty && cellNunique c.cells ≤ 10 &&
    obs.all (fun x => match x with | Cell.num q => isIntegral q | _ => false)

/-- `SchemaDetector._detect_ordinal_columns` (target-safe). -/
def detect_ordinal_columns (df : Df) (numeric_cols : List String)
    (target_col : String) : List String :=
  numeric_cols.filter (fun col =>
    col ≠ target_col &&
    (match getCol? df col with
     | some c => ordinalSeriesOk c
     | none => false))

/-- `SchemaDetector._split_categorical_by_missing`: the loop sends a column
to the high-missing bucket iff its missing ratio exceeds 0.4, preserving
order in both buckets. -/
def split_categorical_by_missing (df : Df) (cat_cols : List String) :
    List String × List String :=
  let ratio : String → ℚ := fun col =>
    match getCol? df col with
    | some c => missingRatio c.cells
    | none => 0
  (cat_cols.filter (fun col => !(ratio col > (2 : ℚ) / 5)),
   cat_cols.filter (fun col => ratio col > (2 : ℚ) / 5))

/-- The result dict of `SchemaDetector._validate_target`. -/
structure TargetInfo where
  target : String
  task_type : String
  target_warnings : List String
deriving DecidableEq, Repr

/-- `SchemaDetector._validate_target`: raises `ValueError` when the target
is absent; otherwise collects (non-fatal) warnings and derives the task
type. -/
def validate_target (df : Df) (target_col : String) : Except String TargetInfo :=
  match getCol? df target_col with
  | none => Except.error ("Target column `" ++ target_col ++ "` not found.")
  | some c =>
      let nunique := cellNunique c.cells
      let numeric_target := isNumericDtype c.dtype
      let warnings :=
        (if nunique ≤ 1 then ["Target column is constant or near-constant."] else []) ++
        (if target_col ∈ detect_id_columns df then
          ["Target column appears to be an ID column."] else []) ++
        (if numeric_target ∧ nunique ≤ 10 then
          ["Target treated as classification due to low cardinality (n=" ++
            toString nunique ++ ")."] else [])
      let task_type := if numeric_target ∧ nunique > 10 then "regression"
        else "classification"
      Except.ok ⟨target_col, task_type, warnings⟩

/-- Model of the pandas `skew() > 1.5` comparison in `_dataset_warnings`.
Pandas' sample skewness `G1 = (n^2 / ((n-1)(n-2))) * m3 / s^3` (with `s`
the `ddof=1` standard deviation and `mk` the k-th central sum) is `NaN`
for fewer than 3 observations or zero variance; `G1 > 3/2` is decided
without square roots by sign analysis and squaring:
`G1 > 3/2  ↔  m3 > 0 ∧ (n^2 m3)^2 > (3/2)^2 ((n-1)(n-2))^2 s^6` with
`s^2 = m2 / (n-1)`. -/
def skewGT (xs : List ℚ) (t : ℚ) : Bool :=
  let n : ℚ := xs.length
  if xs.length < 3 then false else
  let mean := xs.sum / n
  let m2 := (xs.map (fun x => (x - mean) ^ 2)).sum
  let m3 := (xs.map (fun x => (x - mean) ^ 3)).sum
  if m2 = 0 then false else
  (0 < m3) && (n ^ 2 * m3) ^ 2 * (n - 1) > t ^ 2 * ((n - 1) * (n - 2)) ^ 2 * m2 ^ 3

/-- Model of Python's `f"{ratio:.0%}"` percent formatting (rounding mode of
ties differs from CPython's bankers' rounding; no claim depends on it). -/
def pctString (r : ℚ) : String :=
  toString (round (r * 100) : ℤ) ++ "%"

/-- `SchemaDetector._dataset_warnings`. -/
def dataset_warnings (df : Df) (numeric_cols high_missing_cat : List String) :
    List String :=
  (high_missing_cat.map (fun col =>
    let ratio := match getCol? df col with
      | some c => missingRatio c.cells
      | none => 0
    "High missing values in `" ++ col ++ "` (" ++ pctString ratio ++ ")")) ++
  (numeric_cols.filter (fun col =>
    match getCol? df col with
    | some c => !(obsVals c.cells).isEmpty && skewGT (obsVals c.cells) ((3 : ℚ) / 2)
    | none => false)).map (fun col => "`" ++ col ++ "` is heavily right-skewed")

/-- `SchemaDetector.detect`: the main schema generator, assembling the role
groups exactly as `schema.py` lines 193–240 do. -/
def detect (df : Df) (target_col : String) : Except String Schema :=
  let numeric_cols := detect_numeric_columns df
  let categorical_cols := detect_categorical_columns df
  let datetime_cols := detect_datetime_columns df
  let id_columns := detect_id_columns df
  let high_cardinality := detect_high_cardinality_columns df
  let ordinal_cols := detect_ordinal_columns df numeric_cols target_col
  let numeric_continuous := numeric_cols.filter (fun c =>
    !(ordinal_cols.contains c) && c ≠ target_col && !(id_columns.contains c))
  let categorical_cols2 := categorical_cols.filter (fun c =>
    !(high_cardinality.contains c) && !(id_columns.contains c))
  let split := split_categorical_by_missing df categorical_cols2
  let categorical_clean := split.1
  let categorical_high_missing := split.2
  match validate_target df target_col with
  | Except.error e => Except.error e
  | Except.ok ti =>
      Except.ok
        { target := ti.target
          task_type := ti.task_type
          numeric := numeric_continuous
          ordinal := ordinal_cols
          categorical := categorical_clean
          high_missing_categorical := categorical_high_missing
          high_cardinality_columns := high_cardinality
          id_columns := id_columns
          datetime := datetime_cols
          warnings := ti.target_warnings ++
            dataset_warnings df numeric_continuous categorical_high_missing }

-- --------------------------------------------------
-- Pandas aggregation models used by DataCleaner
-- --------------------------------------------------

/-- Linear interpolation at fractional position `h ≥ 0` in a (sorted) list
`ys`, the core of NumPy/pandas `quantile(_, interpolation="linear")`:
with `f = ⌊h⌋` and `γ = h - ⌊h⌋`, the value is
`ys[f] + γ * (ys[f+1] - ys[f])` (last element when `f+1` is out of
range). -/
def interpAt (ys : List ℚ) (h : ℚ) : ℚ :=
  if (⌊h⌋).toNat + 1 < ys.length then
    ys.getD (⌊h⌋).toNat 0 +
      Int.fract h * (ys.getD ((⌊h⌋).toNat + 1) 0 - ys.getD (⌊h⌋).toNat 0)
  else ys.getD (ys.length - 1) 0

/-- `series.quantile(q)` (linear interpolation, `NaN` skipped): `none` when
there are no observed values (pandas returns `NaN`). -/
def quantileQ (xs : List ℚ) (q : ℚ) : Option ℚ :=
  match xs with
  | [] => none
  | _ => some (interpAt (xs.insertionSort (· ≤ ·))
      (q * ((xs.length : ℚ) - 1)))

/-- `series.median()`, which pandas computes as the linearly interpolated
0.5-quantile of the observed values. -/
def medianCells (cells : List Cell) : Option ℚ :=
  quantileQ (obsVals cells) ((1 : ℚ) / 2)

/-- pandas `mode().iloc[0]` on an object column: the most frequent observed
string value; on ties the least string (pandas returns the modes sorted
ascending and `.iloc[0]` takes the first).  `none` when there is no
observed string value (then `.iloc[0]` raises `IndexError`). -/
def modeFirst (cells : List Cell) : Option String :=
  let vals := cells.filterMap (fun x =>
    match x with | Cell.str s => some s | _ => none)
  vals.foldl (fun best v =>
    match best with
    | none => some v
    | some b =>
        if vals.count v > vals.count b ∨ (vals.count v = vals.count b ∧ v < b)
        then some v else some b) none

-- --------------------------------------------------
-- DataCleaner (pipeline/cleaner.py)
-- --------------------------------------------------

/-- `pd.to_numeric(x, errors="coerce")` on one cell: numbers pass through,
missing stays missing, and unparseable values become missing.  String
parsing is modelled for integer literals (`String.toInt?`). -/
def toNumericCell (x : Cell) : Cell :=
  match x with
  | Cell.num q => Cell.num q
  | Cell.na => Cell.na
  | Cell.str s => match s.toInt? with
      | some n => Cell.num (n : ℚ)
      | none => Cell.na
  | Cell.date _ => Cell.na

/-- `astype(str)` on one cell: every cell becomes its string rendering;
pandas renders a missing value as the literal string `"nan"`. -/
def astypeStrCell (x : Cell) : Cell :=
  Cell.str (match x with
    | Cell.na => "nan"
    | Cell.num q => toString q
    | Cell.str s => s
    | Cell.date s => s)

/-- `pd.to_datetime(x, errors="coerce")` on one cell: parseable strings
become datetimes, missing stays missing, everything unparseable becomes
`NaT`. -/
def toDatetimeCell (x : Cell) : Cell :=
  match x with
  | Cell.na => Cell.na
  | Cell.str s => if dateLike s then Cell.date s else Cell.na
  | Cell.num _ => Cell.na
  | Cell.date s => Cell.date s

/-- Fill a missing cell with a numeric value (`fillna(median)`). -/
def fillNaNum (m : ℚ) (x : Cell) : Cell :=
  match x with
  | Cell.na => Cell.num m
  | _ => x

/-- Fill a missing cell with a string value (`fillna(mode)`). -/
def fillNaStr (m : String) (x : Cell) : Cell :=
  match x with
  | Cell.na => Cell.str m
  | _ => x

/-- `DataCleaner._drop_id_columns`: drop the schema's id columns, keeping
the target even if it was (mis)classified as an id. -/
def drop_id_columns (s : Schema) (df : Df) : Df :=
  let id_cols := s.id_columns.filter (fun c => c ≠ s.target)
  df.filter (fun c => !(id_cols.contains c.name))

/-- Numeric half of `DataCleaner._handle_missing_values`: each schema-numeric
feature column with missing cells is filled with its own median.  A median
of `none` models pandas' all-`NaN` median, whose `fillna(NaN)` is a no-op. -/
def handle_missing_numeric (s : Schema) (df : Df) : Df :=
  df.map (fun c =>
    if s.numeric.contains c.name && c.name ≠ s.target && naCount c.cells > 0 then
      match medianCells c.cells with
      | some m => { c with cells := c.cells.map (fillNaNum m) }
      | none => c
    else c)

/-- Column-at-a-time effectful map, modelling a Python `for` loop whose body
may raise: the first raise aborts the whole pass. -/
def exceptMap (g : Column → Except String Column) : Df → Except String Df
  | [] => Except.ok []
  | c :: cs =>
      match g c with
      | Except.error e => Except.error e
      | Except.ok c' =>
          match exceptMap g cs with
          | Except.error e => Except.error e
          | Except.ok cs' => Except.ok (c' :: cs')

/-- Categorical half of `DataCleaner._handle_missing_values`: fill missing
cells with the column mode; `mode().iloc[0]` on an all-missing column
raises `IndexError`, modelled by `Except.error`. -/
def handle_missing_categorical (s : Schema) (df : Df) : Except String Df :=
  exceptMap (fun c =>
    if s.categorical.contains c.name && c.name ≠ s.target && naCount c.cells > 0 then
      match modeFirst c.cells with
      | some m => Except.ok { c with cells := c.cells.map (fillNaStr m) }
      | none => Except.error "IndexError: mode of an all-missing column"
    else Except.ok c) df

/-- `DataCleaner._handle_missing_values`: first the numeric loop, then the
categorical loop (the loops touch disjoint occurrences column-wise, so the
two passes compose). -/
def handle_missing_values (s : Schema) (df : Df) : Except String Df :=
  handle_missing_categorical s (handle_missing_numeric s df)

/-- Numeric loop of `DataCleaner._fix_column_types`. -/
def fix_types_numeric (s : Schema) (df : Df) : Df :=
  df.map (fun c =>
    if s.numeric.contains c.name && c.name ≠ s.target then
      { c with dtype := Dtype.float64, cells := c.cells.map toNumericCell }
    else c)

/-- Categorical loop of `DataCleaner._fix_column_types`. -/
def fix_types_categorical (s : Schema) (df : Df) : Df :=
  df.map (fun c =>
    if s.categorical.contains c.name && c.name ≠ s.target then
      { c with dtype := Dtype.obj, cells := c.cells.map astypeStrCell }
    else c)

/-- Datetime loop of `DataCleaner._fix_column_types`. -/
def fix_types_datetime (s : Schema) (df : Df) : Df :=
  df.map (fun c =>
    if s.datetime.contains c.name && c.name ≠ s.target then
      { c with dtype := Dtype.dt64, cells := c.cells.map toDatetimeCell }
    else c)

/-- `DataCleaner._fix_column_types`: numeric, then categorical, then
datetime casts. -/
def fix_column_types (s : Schema) (df : Df) : Df :=
  fix_types_datetime s (fix_types_categorical s (fix_types_numeric s df))

/-- First `.loc` write of `_fix_outliers`: values below the lower fence
become the (pre-capping) median. -/
def capLow (lower m : ℚ) (x : Cell) : Cell :=
  match x with
  | Cell.num q => if q < lower then Cell.num m else Cell.num q
  | _ => x

/-- Second `.loc` write of `_fix_outliers`: values above the upper fence
become the (pre-capping) median. -/
def capHigh (upper m : ℚ) (x : Cell) : Cell :=
  match x with
  | Cell.num q => if upper < q then Cell.num m else Cell.num q
  | _ => x

/-- `len(outliers)` in `_fix_outliers`: rows outside the fences. -/
def outlierCount (cells : List Cell) (lower upper : ℚ) : ℕ :=
  (cells.filter (fun x =>
    match x with
    | Cell.num q => q < lower ∨ upper < q
    | _ => false)).length

/-- Per-column body of `DataCleaner._fix_outliers`: compute Q1/Q3/IQR,
skip when IQR is zero, otherwise replace out-of-fence values with the
column median computed before any replacement.  Quantiles of an
all-missing column are `NaN` (`none` here); the `IQR == 0` test is then
false and the fence comparisons are all false, so nothing changes. -/
def fixOutlierCol (c : Column) : Column :=
  match quantileQ (obsVals c.cells) ((1 : ℚ) / 4),
        quantileQ (obsVals c.cells) ((3 : ℚ) / 4) with
  | some q1, some q3 =>
      let iqr := q3 - q1
      if iqr = 0 then c
      else
        let lower := q1 - (3 : ℚ) / 2 * iqr
        let upper := q3 + (3 : ℚ) / 2 * iqr
        if outlierCount c.cells lower upper > 0 then
          match medianCells c.cells with
          | some m =>
              { c with cells := (c.cells.map (capLow lower m)).map (capHigh upper m) }
          | none => c
        else c
  | _, _ => c

/-- `DataCleaner._fix_outliers` over the schema's numeric feature columns. -/
def fix_outliers (s : Schema) (df : Df) : Df :=
  df.map (fun c =>
    if s.numeric.contains c.name && c.name ≠ s.target then fixOutlierCol c
    else c)

/-- `DataCleaner.__init__` + `DataCleaner.clean`: the constructor's
missing-target check, then the five steps in order.  `_detect_high_cardinality`
only reads the frame and `reset_index(drop=True)` renumbers rows without
reordering them, so neither changes the data; the cleaning report is
write-only metadata and is not modelled. -/
def clean (df : Df) (s : Schema) : Except String Df :=
  if s.target ∈ columnNames df then
    let d1 := drop_id_columns s df
    match handle_missing_values s d1 with
    | Except.error e => Except.error e
    | Except.ok d3 => Except.ok (fix_outliers s (fix_column_types s d3))
  else Except.error "Target column missing before cleaning."

-- --------------------------------------------------
-- ModelTrainer (pipeline/trainer.py)
-- --------------------------------------------------

/-- One entry of `self.results`: the five fold scores and their mean. -/
structure ModelResult where
  cv_scores : List ℚ
  cv_mean_score : ℚ
deriving DecidableEq, Repr

/-- The trainer's observable state after `train_all_models`. -/
structure TrainOutcome where
  results : List (String × ModelResult)
  best_score : ℚ
  best_model_name : Option String
deriving DecidableEq, Repr

/-- `scores.mean()` (NumPy arithmetic mean). -/
def npMean (xs : List ℚ) : ℚ :=
  xs.sum / (xs.length : ℚ)

/-- The training loop of `train_all_models` over the fixed model roster.
Each roster entry is a model name paired with the outcome of
`cross_val_score` for it: either its fold scores or the exception it
raised.  The loop carries `self.best_score` (initialised to `-1e9`) and
`self.best_model_name`; a raised exception propagates out of the loop —
there is no `try`/`except` around `cross_val_score` in the source. -/
def trainLoop :
    List (String × Except String (List ℚ)) → ℚ → Option String →
    Except String (List (String × ModelResult) × ℚ × Option String)
  | [], best, bn => Except.ok ([], best, bn)
  | (_, Except.error e) :: _, _, _ => Except.error e
  | (name, Except.ok scores) :: rest, best, bn =>
      let mean_score := npMean scores
      let best' := if best < mean_score then mean_score else best
      let bn' := if best < mean_score then some name else bn
      match trainLoop rest best' bn' with
      | Except.error e => Except.error e
      | Except.ok (res, b, n) =>
          Except.ok ((name, ⟨scores, mean_score⟩) :: res, b, n)

/-- `ModelTrainer.train_all_models`, starting from the constructor's
`best_score = -1e9` and `best_model_name = None`. -/
def train_all_models (runs : List (String × Except String (List ℚ))) :
    Except String TrainOutcome :=
  match trainLoop runs (-(10 ^ 9 : ℚ)) none with
  | Except.error e => Except.error e
  | Except.ok (res, b, n) => Except.ok ⟨res, b, n⟩

-- --------------------------------------------------
-- DatasetQualityAnalyzer (pipeline/quality_analyzer.py)
-- --------------------------------------------------

/-- The slice of the EDA report's `target_analysis` dict that the quality
analyzer reads (`.get` returning `none` models an absent key). -/
structure TargetAnalysisIn where
  task_type : Option String
  class_distribution : List (String × ℚ)
deriving DecidableEq, Repr

/-- The slice of the EDA report that the quality analyzer reads. -/
structure EdaIn where
  target_analysis : Option TargetAnalysisIn
deriving DecidableEq, Repr

/-- The quality analyzer's mutable state: `self.score` (an integer: the
baseline 50 plus integer bonuses/penalties) and the three lists. -/
structure QAState where
  score : ℤ
  risks : List String
  strengths : List String
  recommendations : List String
deriving DecidableEq, Repr

/-- `np.max` over a nonempty list given as head and tail. -/
def foldMax (x : ℚ) (xs : List ℚ) : ℚ :=
  xs.foldl max x

/-- `np.min` over a nonempty list given as head and tail. -/
def foldMin (x : ℚ) (xs : List ℚ) : ℚ :=
  xs.foldl min x

/-- Model of Python's `f"{x:.1f}"` (one decimal; tie rounding differs from
CPython's, no claim depends on it). -/
def fmt1 (q : ℚ) : String :=
  let n : ℤ := round (q * 10)
  toString (n / 10) ++ "." ++ toString (n % 10).natAbs

/-- `DatasetQualityAnalyzer._check_target_imbalance`. -/
def check_target_imbalance (eda : EdaIn) (st : QAState) : QAState :=
  match eda.target_analysis with
  | none => st
  | some ta =>
      if ta.task_type ≠ some "classification" then st
      else
        match ta.class_distribution with
        | [] => st
        | (_, v) :: rest =>
            let counts := rest.map Prod.snd
            let imbalance_ratio := foldMax v counts / max (foldMin v counts) 1
            if imbalance_ratio > 10 then
              { st with
                score := st.score - 15
                risks := st.risks ++
                  ["Severe class imbalance detected (≈ " ++ fmt1 imbalance_ratio ++ ":1)."]
                recommendations := st.recommendations ++
                  ["Consider resampling techniques or class-weighted models."] }
            else st

/-- `DatasetQualityAnalyzer._check_model_improvement`. -/
def check_model_improvement (baseline_name : String)
    (training : List (String × ModelResult)) (st : QAState) : QAState :=
  match training.find? (fun p => p.1 == baseline_name) with
  | none => st
  | some bp =>
      let baseline_score := bp.2.cv_mean_score
      let best_score :=
        match training.map (fun p => p.2.cv_mean_score) with
        | [] => baseline_score
        | m :: ms => foldMax m ms
      let absolute_gain := best_score - baseline_score
      if absolute_gain ≥ (1 : ℚ) / 4 then
        { st with
          score := st.score + 30
          strengths := st.strengths ++
            ["Models significantly outperform the baseline (+" ++ fmt1 absolute_gain ++ ")."] }
      else if absolute_gain ≥ (1 : ℚ) / 10 then
        { st with
          score := st.score + 15
          strengths := st.strengths ++
            ["Models moderately outperform the baseline (+" ++ fmt1 absolute_gain ++ ")."]
          recommendations := st.recommendations ++
            ["Feature engineering could further improve performance."] }
      else
        { st with
          score := st.score - 20
          risks := st.risks ++ ["Models show limited improvement over the baseline."]
          recommendations := st.recommendations ++
            ["Consider revisiting feature selection or problem framing."] }

/-- `DatasetQualityAnalyzer._check_feature_richness`. -/
def check_feature_richness (s : Schema) (st : QAState) : QAState :=
  let feature_count := s.numeric.length + s.ordinal.length + s.categorical.length
  if feature_count ≥ 6 then
    { st with
      score := st.score + 10
      strengths := st.strengths ++
        ["Dataset contains a diverse and informative feature set."] }
  else if feature_count ≤ 2 then
    { st with
      score := st.score - 10
      risks := st.risks ++ ["Very limited number of usable features detected."] }
  else st

/-- `DatasetQualityAnalyzer._finalize_score`. -/
def finalize_score (st : QAState) : QAState :=
  if st.risks = [] ∧ st.strengths = [] then
    { st with strengths := ["No major data quality issues detected."] }
  else st

/-- `DatasetQualityAnalyzer._verdict` (reads the raw, unclamped score). -/
def verdictOf (score : ℤ) : String :=
  if score ≥ 80 then "Strong ML potential"
  else if score ≥ 60 then "Moderate ML potential"
  else "Low ML potential"

/-- The report dict returned by `DatasetQualityAnalyzer.analyze`. -/
structure QualityReport where
  learnability_score : ℤ
  verdict : String
  strengths : List String
  risks : List String
  recommendations : List String
deriving DecidableEq, Repr

/-- `DatasetQualityAnalyzer.analyze`: run the three checks from the neutral
baseline 50, finalize, clamp the score into [0,100] and attach the
verdict (computed from the unclamped score, as in the source). -/
def analyze (s : Schema) (eda : EdaIn) (training : List (String × ModelResult))
    (baseline_name : String) : QualityReport :=
  let st := finalize_score (check_feature_richness s
    (check_model_improvement baseline_name training
      (check_target_imbalance eda ⟨50, [], [], []⟩)))
  { learnability_score := min (max st.score 0) 100
    verdict := verdictOf st.score
    strengths := st.strengths
    risks := st.risks
    recommendations := st.recommendations }

-- --------------------------------------------------
-- Concrete frames used by counterexamples and witnesses
-- --------------------------------------------------

/-- C1 counterexample frame: `group_id` is an integer column with 2 distinct
integral values (hence ordinal) whose name also matches the `_id$`
pattern (hence identifier). -/
def dfC1 : Df :=
  [⟨"group_id", Dtype.int64, [Cell.num 1, Cell.num 2, Cell.num 2]⟩,
   ⟨"y", Dtype.int64, [Cell.num 0, Cell.num 1, Cell.num 0]⟩]

/-- The schema `detect dfC1 "y"` returns. -/
def schemaC1 : Schema :=
  { target := "y"
    task_type := "classification"
    numeric := []
    ordinal := ["group_id"]
    categorical := []
    high_missing_categorical := []
    high_cardinality_columns := []
    id_columns := ["group_id"]
    datetime := []
    warnings := ["Target treated as classification due to low cardinality (n=2)."] }

/-- C2 counterexample frame: the chosen target `user_id` matches the `_id$`
identifier pattern. -/
def dfC2 : Df :=
  [⟨"user_id", Dtype.int64, [Cell.num 1, Cell.num 2, Cell.num 3]⟩,
   ⟨"age", Dtype.int64, [Cell.num 30, Cell.num 40, Cell.num 50]⟩]

/-- The schema `detect dfC2 "user_id"` returns. -/
def schemaC2 : Schema :=
  { target := "user_id"
    task_type := "classification"
    numeric := []
    ordinal := ["age"]
    categorical := []
    high_missing_categorical := []
    high_cardinality_columns := []
    id_columns := ["user_id"]
    datetime := []
    warnings := ["Target column appears to be an ID column.",
                 "Target treated as classification due to low cardinality (n=3)."] }

/-- C4 counterexample frame: `rank` is a float column with a missing cell
and ≤10 distinct integral values, so the schema classifies it ordinal. -/
def dfC4 : Df :=
  [⟨"rank", Dtype.float64, [Cell.num 1, Cell.na, Cell.num 2, Cell.num 2]⟩,
   ⟨"y", Dtype.int64, [Cell.num 0, Cell.num 1, Cell.num 0, Cell.num 1]⟩]

/-- The schema `detect dfC4 "y"` returns: `rank` is in the ordinal group. -/
def schemaC4 : Schema :=
  { target := "y"
    task_type := "classification"
    numeric := []
    ordinal := ["rank"]
    categorical := []
    high_missing_categorical := []
    high_cardinality_columns := []
    id_columns := []
    datetime := []
    warnings := ["Target treated as classification due to low cardinality (n=2)."] }

/-- C8 counterexample frame: `score` has distinct-value ratio 1 (> 0.98)
but its name matches no identifier pattern. -/
def dfC8 : Df :=
  [⟨"score", Dtype.int64, [Cell.num 1, Cell.num 2, Cell.num 3]⟩]

-- --------------------------------------------------
-- General lemmas
-- --------------------------------------------------

lemma contains_true_iff (l : List String) (a : String) :
    l.contains a = true ↔ a ∈ l := by
  simp

lemma naCount_eq_zero_iff {cells : List Cell} :
    naCount cells = 0 ↔ ∀ x ∈ cells, x ≠ Cell.na := by
  simp [naCount, List.length_eq_zero, List.filter_eq_nil_iff]

lemma mem_obsVals {cells : List Cell} {q : ℚ} (h : Cell.num q ∈ cells) :
    q ∈ obsVals cells := by
  simp only [obsVals, List.mem_filterMap]
  exact ⟨Cell.num q, h, rfl⟩

-- --------------------------------------------------
-- Trainer-loop specification (claims C5, C6, C10)
-- --------------------------------------------------

lemma foldl_max_le_iff (l : List ℚ) (a bound : ℚ) :
    l.foldl max a ≤ bound ↔ a ≤ bound ∧ ∀ x ∈ l, x ≤ bound := by
  induction l generalizing a with
  | nil => simp
  | cons y ys ih =>
      simp only [List.foldl_cons, ih, max_le_iff, List.mem_cons]
      constructor
      · rintro ⟨⟨h1, h2⟩, h3⟩
        exact ⟨h1, fun x hx => hx.elim (fun hx => hx ▸ h2) (h3 x)⟩
      · rintro ⟨h1, h2⟩
        exact ⟨⟨h1, h2 y (Or.inl rfl)⟩, fun x hx => h2 x (Or.inr hx)⟩

lemma le_foldl_max (l : List ℚ) (a : ℚ) : a ≤ l.foldl max a := by
  by_contra h
  have := (foldl_max_le_iff l a (l.foldl max a)).mp le_rfl
  exact h this.1

lemma foldl_max_eq_or_mem (l : List ℚ) (a : ℚ) :
    l.foldl max a = a ∨ l.foldl max a ∈ l := by
  induction l generalizing a with
  | nil => exact Or.inl rfl
  | cons y ys ih =>
      simp only [List.foldl_cons]
      rcases ih (max a y) with h | h
      · rw [h]
        rcases le_total a y with hay | hya
        · right; rw [max_eq_right hay]; exact List.mem_cons_self y ys
        · left; rw [max_eq_left hya]
      · exact Or.inr (List.mem_cons_of_mem y h)

/-- Full behaviour of `trainLoop` on a successful run: the recorded means
are the arithmetic means of the fold scores, the final best score is the
maximum of the initial best and all recorded means, and the final best
name is unchanged when nothing beat the initial best and otherwise names
the first model attaining the final maximum. -/
lemma trainLoop_ok_spec :
    ∀ (runs : List (String × Except String (List ℚ))) (best : ℚ)
      (bn : Option String) (res : List (String × ModelResult)) (b : ℚ)
      (n : Option String),
      trainLoop runs best bn = Except.ok (res, b, n) →
      (∀ p ∈ res, p.2.cv_mean_score = npMean p.2.cv_scores) ∧
      b = (res.map (fun p => p.2.cv_mean_score)).foldl max best ∧
      (b = best → n = bn) ∧
      (best < b →
        n = (res.find? (fun p => p.2.cv_mean_score == b)).map Prod.fst) := by
  intro runs
  induction runs with
  | nil =>
      intro best bn res b n h
      simp only [trainLoop, Except.ok.injEq, Prod.mk.injEq] at h
      obtain ⟨h1, h2, h3⟩ := h
      subst h1; subst h2; subst h3
      refine ⟨by simp, by simp, fun _ => rfl, fun hlt => absurd hlt (by simp)⟩
  | cons hd tl ih =>
      intro best bn res b n h
      obtain ⟨name, run⟩ := hd
      cases run with
      | error e => simp [trainLoop] at h
      | ok scores =>
          simp only [trainLoop] at h
          set m := npMean scores with hm
          rcases htl : trainLoop tl (if best < m then m else best)
              (if best < m then some name else bn) with e' | ⟨res', b', n'⟩
          · rw [htl] at h; exact absurd h (by simp)
          · rw [htl] at h
            simp only [Except.ok.injEq, Prod.mk.injEq] at h
            obtain ⟨hres, hb, hn⟩ := h
            subst hres; subst hb; subst hn
            obtain ⟨ihmean, ihmax, iheq, ihgt⟩ :=
              ih (if best < m then m else best)
                 (if best < m then some name else bn) res' b' n' htl
            by_cases hlt : best < m
            · simp only [if_pos hlt] at ihmax iheq ihgt
              have hmb : m ≤ b' := ihmax ▸ le_foldl_max _ m
              refine ⟨?_, ?_, ?_, ?_⟩
              · intro p hp
                rcases List.mem_cons.mp hp with rfl | hp'
                · rfl
                · exact ihmean p hp'
              · simpa [max_eq_right (le_of_lt hlt)] using ihmax
              · intro hbb
                rw [hbb] at hmb
                exact absurd (lt_of_lt_of_le hlt hmb) (lt_irrefl best)
              · intro _
                by_cases hmb' : m = b'
                · have hn : n' = some name := iheq hmb'.symm
                  rw [List.find?_cons_of_pos _ (by simp [hmb'])]
                  simpa using hn
                · have hmlt : m < b' := lt_of_le_of_ne hmb hmb'
                  rw [List.find?_cons_of_neg _ (by simp [hmb'])]
                  exact ihgt hmlt
            · simp only [if_neg hlt] at ihmax iheq ihgt
              push_neg at hlt
              refine ⟨?_, ?_, ?_, ?_⟩
              · intro p hp
                rcases List.mem_cons.mp hp with rfl | hp'
                · rfl
                · exact ihmean p hp'
              · simpa [max_eq_left hlt] using ihmax
              · exact iheq
              · intro hbgt
                have hmne : m ≠ b' := fun hc => absurd (hc ▸ hbgt) (not_lt.mpr hlt)
                rw [List.find?_cons_of_neg _ (by simp [hmne])]
                exact ihgt hbgt

lemma trainLoop_error_of_mem :
    ∀ (runs : List (String × Except String (List ℚ))) (best : ℚ)
      (bn : Option String) (name : String) (e : String),
      (name, Except.error e) ∈ runs →
      ∃ e', trainLoop runs best bn = Except.error e' := by
  intro runs
  induction runs with
  | nil => intro best bn name e h; simp at h
  | cons hd tl ih =>
      intro best bn name e h
      obtain ⟨hn, hr⟩ := hd
      cases hr with
      | error e'' => exact ⟨e'', rfl⟩
      | ok scores =>
          rcases List.mem_cons.mp h with heq | hmem
          · exact absurd heq (by simp)
          · obtain ⟨e', he'⟩ := ih (if best < npMean scores then npMean scores else best)
              (if best < npMean scores then some hn else bn) name e hmem
            refine ⟨e', ?_⟩
            simp only [trainLoop]
            rw [he']

/-- Concrete roster for the C5 counterexample: the second model raises
during cross-validation while the first and third evaluate fine. -/
def runsC5 : List (String × Except String (List ℚ)) :=
  [("Baseline", Except.ok [1/2, 3/5]),
   ("LogisticRegression", Except.error "ValueError: solver failure"),
   ("SVC", Except.ok [7/10, 7/10])]

/-- Concrete roster for the C5 witness. -/
def runsW5 : List (String × Except String (List ℚ)) :=
  [("Baseline", Except.ok [2/5]),
   ("KNN", Except.error "MemoryError")]

/-- Concrete all-success roster for the C6 witness. -/
def runsW6 : List (String × Except String (List ℚ)) :=
  [("Baseline", Except.ok [1/2, 1]),
   ("RandomForestClassifier", Except.ok [1, 1])]

/-- `train_all_models runsW6`. -/
def outW6 : TrainOutcome :=
  { results :=
      [("Baseline", ⟨[1/2, 1], 3/4⟩),
       ("RandomForestClassifier", ⟨[1, 1], 1⟩)]
    best_score := 1
    best_model_name := some "RandomForestClassifier" }

/-- Concrete tied roster for the C10 witness: both models attain mean 1. -/
def runsW10 : List (String × Except String (List ℚ)) :=
  [("Baseline", Except.ok [1, 1]),
   ("SVC", Except.ok [1, 1])]

/-- `train_all_models runsW10`: the tie is resolved in favour of the model
evaluated first. -/
def outW10 : TrainOutcome :=
  { results := [("Baseline", ⟨[1, 1], 1⟩), ("SVC", ⟨[1, 1], 1⟩)]
    best_score := 1
    best_model_name := some "Baseline" }

/-- C5 (counterexample).  The claim says a model that raises during
cross-validation is excluded while the run continues with the remaining
models.  In the code there is no `try`/`except` around `cross_val_score`:
on `runsC5` the second model's exception aborts `train_all_models`
entirely even though the third model (`"SVC"`) was still available and
would have evaluated fine, so no comparison is produced at all. -/
theorem c5_per_model_failure_counterexample :
    train_all_models runsC5 = Except.error "ValueError: solver failure" ∧
    ("SVC", Except.ok ([7/10, 7/10] : List ℚ)) ∈ runsC5 := by
  constructor
  · rfl
  · simp [runsC5]

/-- C5 (amended).  If any roster model raises during cross-validation, the
exception propagates out of `train_all_models` and the whole run fails;
there is no per-model exclusion and the remaining models are not
evaluated. -/
theorem c5_per_model_failure_amended
    (runs : List (String × Except String (List ℚ))) (name e : String)
    (hmem : (name, Except.error e) ∈ runs) :
    ∃ e', train_all_models runs = Except.error e' := by
  obtain ⟨e', he'⟩ := trainLoop_error_of_mem runs (-(10 ^ 9 : ℚ)) none name e hmem
  refine ⟨e', ?_⟩
  simp only [train_all_models]
  rw [he']

/-- Witness for C5 (amended) at the concrete roster `runsW5`. -/
theorem c5_per_model_failure_witness :
    ∃ e', train_all_models runsW5 = Except.error e' :=
  c5_per_model_failure_amended runsW5 "KNN" "MemoryError" (by simp [runsW5])

/-- C6 (confirmed).  On every successful `train_all_models` run in which
some model beat the `-1e9` sentinel, each reported `cv_mean_score` is the
arithmetic mean of that model's `cv_scores`, `best_score` is the maximum
mean over all evaluated models, and `best_model_name` names a model
attaining that maximum. -/
theorem c6_cv_mean_and_best_selection
    (runs : List (String × Except String (List ℚ))) (out : TrainOutcome)
    (hok : train_all_models runs = Except.ok out)
    (hgt : -(10 ^ 9 : ℚ) < out.best_score) :
    (∀ p ∈ out.results, p.2.cv_mean_score = npMean p.2.cv_scores) ∧
    (∀ p ∈ out.results, p.2.cv_mean_score ≤ out.best_score) ∧
    (∃ p ∈ out.results, out.best_model_name = some p.1 ∧
      p.2.cv_mean_score = out.best_score) := by
  simp only [train_all_models] at hok
  rcases hl : trainLoop runs (-(10 ^ 9 : ℚ)) none with e | ⟨res, b, n⟩
  · rw [hl] at hok; exact absurd hok (by simp)
  · rw [hl] at hok
    simp only [Except.ok.injEq] at hok
    subst hok
    obtain ⟨hmean, hmax, _, hfind⟩ := trainLoop_ok_spec runs _ none res b n hl
    refine ⟨hmean, ?_, ?_⟩
    · intro p hp
      have hble := (foldl_max_le_iff (res.map (fun p => p.2.cv_mean_score))
        (-(10 ^ 9 : ℚ)) b).mp (le_of_eq hmax.symm)
      exact hble.2 _ (List.mem_map.mpr ⟨p, hp, rfl⟩)
    · have hn := hfind hgt
      rcases hf : res.find? (fun p => p.2.cv_mean_score == b) with _ | p
      · rcases foldl_max_eq_or_mem (res.map (fun p => p.2.cv_mean_score))
            (-(10 ^ 9 : ℚ)) with hcase | hcase
        · rw [← hmax] at hcase
          exact absurd hcase.symm (ne_of_lt hgt)
        · rw [← hmax] at hcase
          obtain ⟨p, hp, hpb⟩ := List.mem_map.mp hcase
          have := List.find?_eq_none.mp hf p hp
          simp [hpb] at this
      · have hpmem := List.mem_of_find?_eq_some hf
        have hpeq : p.2.cv_mean_score = b := by
          have := List.find?_some hf
          simpa using this
        rw [hf] at hn
        exact ⟨p, hpmem, hn, hpeq⟩

/-- Witness for C6 at the concrete roster `runsW6`. -/
theorem c6_cv_mean_and_best_selection_witness :
    (∀ p ∈ outW6.results, p.2.cv_mean_score = npMean p.2.cv_scores) ∧
    (∀ p ∈ outW6.results, p.2.cv_mean_score ≤ outW6.best_score) ∧
    (∃ p ∈ outW6.results, outW6.best_model_name = some p.1 ∧
      p.2.cv_mean_score = outW6.best_score) :=
  c6_cv_mean_and_best_selection runsW6 outW6
    (by norm_num [train_all_models, trainLoop, runsW6, npMean, outW6,
      List.sum_cons, List.sum_nil])
    (by norm_num [outW6])

/-- C10 (confirmed).  On every successful run in which some model beat the
`-1e9` sentinel, `best_model_name` is the FIRST model (in roster
evaluation order) whose mean equals `best_score`: a later model replaces
the incumbent only on a strictly greater mean, so exact ties keep the
earlier model. -/
theorem c10_tie_keeps_first_model
    (runs : List (String × Except String (List ℚ))) (out : TrainOutcome)
    (hok : train_all_models runs = Except.ok out)
    (hgt : -(10 ^ 9 : ℚ) < out.best_score) :
    out.best_model_name =
      (out.results.find? (fun p => p.2.cv_mean_score == out.best_score)).map
        Prod.fst := by
  simp only [train_all_models] at hok
  rcases hl : trainLoop runs (-(10 ^ 9 : ℚ)) none with e | ⟨res, b, n⟩
  · rw [hl] at hok; exact absurd hok (by simp)
  · rw [hl] at hok
    simp only [Except.ok.injEq] at hok
    subst hok
    obtain ⟨_, _, _, hfind⟩ := trainLoop_ok_spec runs _ none res b n hl
    exact hfind hgt

/-- Witness for C10 at the tied roster `runsW10`: `Baseline` and `SVC`
both attain mean 1 and `Baseline`, evaluated first, is retained. -/
theorem c10_tie_keeps_first_model_witness :
    outW10.best_model_name =
      (outW10.results.find? (fun p => p.2.cv_mean_score == outW10.best_score)).map
        Prod.fst :=
  c10_tie_keeps_first_model runsW10 outW10
    (by norm_num [train_all_models, trainLoop, runsW10, npMean, outW10,
      List.sum_cons, List.sum_nil])
    (by norm_num [outW10])

/-- C9 (confirmed).  For every combination of schema, EDA report, training
results and baseline name, `analyze` returns a learnability score clamped
into [0,100]; the verdict matches the ≥80 / ≥60 thresholds (on the
clamped score, which agrees with the raw score at both thresholds); and
the report is never empty-handed: when no check appended a risk or a
strength, `_finalize_score` appends the default strength. -/
theorem c9_quality_score_bounds (s : Schema) (eda : EdaIn)
    (training : List (String × ModelResult)) (baseline_name : String) :
    0 ≤ (analyze s eda training baseline_name).learnability_score ∧
    (analyze s eda training baseline_name).learnability_score ≤ 100 ∧
    (analyze s eda training baseline_name).verdict =
      (if 80 ≤ (analyze s eda training baseline_name).learnability_score then
        "Strong ML potential"
       else if 60 ≤ (analyze s eda training baseline_name).learnability_score then
        "Moderate ML potential"
       else "Low ML potential") ∧
    ((analyze s eda training baseline_name).strengths ≠ [] ∨
      (analyze s eda training baseline_name).risks ≠ []) := by
  set st := finalize_score (check_feature_richness s
    (check_model_improvement baseline_name training
      (check_target_imbalance eda ⟨50, [], [], []⟩))) with hst
  have hscore : (analyze s eda training baseline_name).learnability_score =
      min (max st.score 0) 100 := rfl
  have hverdict : (analyze s eda training baseline_name).verdict =
      verdictOf st.score := rfl
  refine ⟨?_, ?_, ?_, ?_⟩
  · rw [hscore]; omega
  · rw [hscore]; omega
  · rw [hverdict, hscore, verdictOf]
    by_cases h80 : 80 ≤ st.score
    · rw [if_pos h80,
        if_pos (show 80 ≤ min (max st.score 0) 100 by omega)]
    · rw [if_neg h80,
        if_neg (show ¬ 80 ≤ min (max st.score 0) 100 by omega)]
      by_cases h60 : 60 ≤ st.score
      · rw [if_pos h60,
          if_pos (show 60 ≤ min (max st.score 0) 100 by omega)]
      · rw [if_neg h60,
          if_neg (show ¬ 60 ≤ min (max st.score 0) 100 by omega)]
  · have hstrg : (analyze s eda training baseline_name).strengths = st.strengths := rfl
    have hrisk : (analyze s eda training baseline_name).risks = st.risks := rfl
    rw [hstrg, hrisk, hst, finalize_score]
    split_ifs with hcase
    · left; simp
    · rcases not_and_or.mp hcase with h | h
      · right; exact h
      · left; exact h

-- --------------------------------------------------
-- Claims C2 and C8: identifier detection and target validation
-- --------------------------------------------------

lemma getCol?_eq_some_of_mem {df : Df} {tgt : String}
    (hmem : tgt ∈ columnNames df) : ∃ c, getCol? df tgt = some c := by
  obtain ⟨c, hcdf, hname⟩ := List.mem_map.mp hmem
  cases hfind : getCol? df tgt with
  | some c' => exact ⟨c', rfl⟩
  | none =>
      exfalso
      have := List.find?_eq_none.mp hfind c hcdf
      simp [hname] at this

/-- Concrete frame for the C2 witness: the target `uid` matches the `id$`
identifier pattern. -/
def dfW2 : Df :=
  [⟨"uid", Dtype.int64, [Cell.num 1, Cell.num 2]⟩,
   ⟨"z", Dtype.int64, [Cell.num 0, Cell.num 1]⟩]

/-- C2 (counterexample).  The claim says schema detection raises a fatal
`SchemaContradictionError` and returns no schema when the resolved target
is flagged as an identifier.  On `dfC2` the target `user_id` IS flagged
as an identifier, yet `detect` succeeds and returns a schema carrying
only a warning — no `SchemaContradictionError` exists anywhere in the
source. -/
theorem c2_id_target_counterexample :
    detect dfC2 "user_id" = Except.ok schemaC2 ∧
    "user_id" ∈ schemaC2.id_columns ∧
    "Target column appears to be an ID column." ∈ schemaC2.warnings := by
  refine ⟨by rfl, by decide, by decide⟩

/-- C2 (amended).  When the resolved target is present and flagged as an
identifier, `SchemaDetector.detect` still succeeds and returns a schema;
the contradiction is only recorded as the non-fatal warning
"Target column appears to be an ID column.". -/
theorem c2_id_target_amended (df : Df) (tgt : String)
    (hmem : tgt ∈ columnNames df) (hid : tgt ∈ detect_id_columns df) :
    ∃ s, detect df tgt = Except.ok s ∧
      "Target column appears to be an ID column." ∈ s.warnings := by
  obtain ⟨c, hc⟩ := getCol?_eq_some_of_mem hmem
  simp only [detect, validate_target, hc]
  refine ⟨_, rfl, ?_⟩
  apply List.mem_append_left
  apply List.mem_append_left
  apply List.mem_append_right
  rw [if_pos hid]
  exact List.mem_singleton_self _

/-- Witness for C2 (amended) at the concrete frame `dfW2`. -/
theorem c2_id_target_amended_witness :
    ∃ s, detect dfW2 "uid" = Except.ok s ∧
      "Target column appears to be an ID column." ∈ s.warnings :=
  c2_id_target_amended dfW2 "uid" (by decide) (by decide)

/-- C8 (counterexample).  The claim says a column is classified as an
identifier exactly when its name matches an identifier pattern OR its
distinct-value ratio exceeds 0.98.  In `dfC8` the column `score` has
distinct-value ratio 1 > 0.98 yet `_detect_id_columns` (which, per its
own header comment, is "NAME-BASED ONLY") does not flag it, and no
uniqueness-ratio check or target exemption exists in that routine. -/
theorem c8_id_detection_counterexample :
    detect_id_columns dfC8 = [] ∧
    matches_id_pattern (strLower "score") = false ∧
    getCol? dfC8 "score" =
      some ⟨"score", Dtype.int64, [Cell.num 1, Cell.num 2, Cell.num 3]⟩ ∧
    ((cellNunique [Cell.num 1, Cell.num 2, Cell.num 3] : ℚ) / (nRows dfC8 : ℚ)) >
      98 / 100 := by
  refine ⟨by decide, by decide, by decide, ?_⟩
  have h1 : cellNunique [Cell.num 1, Cell.num 2, Cell.num 3] = 3 := by decide
  have h2 : nRows dfC8 = 3 := by decide
  rw [h1, h2]
  norm_num

/-- C8 (amended).  `_detect_id_columns` classifies a column as an
identifier exactly when its lowercased name matches one of the six
name patterns (`^id$`, `_id$`, `id$`, `^uuid$`, `^index$`, `^s\.?no$`);
the distinct-value ratio is never consulted and the target column is not
exempted. -/
theorem c8_id_detection_amended (df : Df) (col : String) :
    col ∈ detect_id_columns df ↔
      ∃ c ∈ df, c.name = col ∧ matches_id_pattern (strLower col) = true := by
  simp only [detect_id_columns, List.mem_map, List.mem_filter]
  constructor
  · rintro ⟨c, ⟨hc, hm⟩, rfl⟩
    exact ⟨c, hc, rfl, hm⟩
  · rintro ⟨c, hc, rfl, hm⟩
    exact ⟨c, ⟨hc, hm⟩, rfl⟩

-- --------------------------------------------------
-- Claim C1: schema role partition
-- --------------------------------------------------

lemma col_of_mem_numeric {df : Df} {c : String}
    (h : c ∈ detect_numeric_columns df) :
    ∃ col ∈ df, col.name = c ∧ isNumericDtype col.dtype = true := by
  simp only [detect_numeric_columns, List.mem_map, List.mem_filter] at h
  obtain ⟨col, ⟨hmem, hdt⟩, rfl⟩ := h
  exact ⟨col, hmem, rfl, hdt⟩

lemma col_of_mem_categorical {df : Df} {c : String}
    (h : c ∈ detect_categorical_columns df) :
    ∃ col ∈ df, col.name = c ∧ col.dtype = Dtype.obj := by
  simp only [detect_categorical_columns, List.mem_map, List.mem_filter,
    decide_eq_true_eq] at h
  obtain ⟨col, ⟨hmem, hdt⟩, rfl⟩ := h
  exact ⟨col, hmem, rfl, hdt⟩

lemma col_of_mem_high_cardinality {df : Df} {c : String}
    (h : c ∈ detect_high_cardinality_columns df) :
    ∃ col ∈ df, col.name = c ∧ col.dtype = Dtype.obj := by
  simp only [detect_high_cardinality_columns, List.mem_map, List.mem_filter,
    Bool.and_eq_true, decide_eq_true_eq] at h
  obtain ⟨col, ⟨hmem, hdt, _⟩, rfl⟩ := h
  exact ⟨col, hmem, rfl, hdt⟩

lemma col_of_mem_datetime {df : Df} {c : String}
    (h : c ∈ detect_datetime_columns df) :
    ∃ col ∈ df, col.name = c ∧ col.dtype = Dtype.obj := by
  simp only [detect_datetime_columns, List.mem_map, List.mem_filter,
    Bool.and_eq_true, decide_eq_true_eq] at h
  obtain ⟨col, ⟨hmem, hdt, _⟩, rfl⟩ := h
  exact ⟨col, hmem, rfl, hdt⟩

lemma column_unique_of_nodup {df : Df} (hnd : (columnNames df).Nodup)
    {a b : Column} (ha : a ∈ df) (hb : b ∈ df) (hab : a.name = b.name) :
    a = b :=
  List.inj_on_of_nodup_map hnd ha hb hab

/-- C1 (counterexample).  The claim says the seven role groups are pairwise
disjoint.  On `dfC1`, the column `group_id` is simultaneously in the
`ordinal` and the `id_columns` groups of the detected schema, because
`_detect_ordinal_columns` excludes the target but not the id columns. -/
theorem c1_role_partition_counterexample :
    detect dfC1 "y" = Except.ok schemaC1 ∧
    "group_id" ∈ schemaC1.ordinal ∧ "group_id" ∈ schemaC1.id_columns :=
  ⟨by rfl, by decide, by decide⟩

/-- C1 (amended).  For every frame with distinct column labels on which
`detect` succeeds: the `numeric` group is disjoint from `ordinal`,
`id_columns` and the target; the target is never `ordinal`; the
`categorical` and `high_missing_categorical` groups are disjoint from
each other and from `high_cardinality_columns` and `id_columns`; and the
numeric-dtype groups (`numeric`, `ordinal`) are disjoint from all
object-dtype groups (`categorical`, `high_missing_categorical`,
`high_cardinality_columns`, `datetime`).  The remaining pairs claimed
disjoint by the spec can overlap (e.g. `ordinal` with `id_columns`), and
the target may appear in the object-dtype and id groups. -/
theorem c1_role_partition_amended (df : Df) (tgt : String) (s : Schema)
    (hnd : (columnNames df).Nodup) (hok : detect df tgt = Except.ok s) :
    (∀ c, c ∈ s.numeric → c ∉ s.ordinal ∧ c ∉ s.id_columns ∧ c ≠ tgt) ∧
    tgt ∉ s.ordinal ∧
    (∀ c, c ∈ s.categorical →
      c ∉ s.high_missing_categorical ∧ c ∉ s.high_cardinality_columns ∧
      c ∉ s.id_columns) ∧
    (∀ c, c ∈ s.high_missing_categorical →
      c ∉ s.high_cardinality_columns ∧ c ∉ s.id_columns) ∧
    (∀ c, c ∈ s.numeric ∨ c ∈ s.ordinal →
      c ∉ s.categorical ∧ c ∉ s.high_missing_categorical ∧
      c ∉ s.high_cardinality_columns ∧ c ∉ s.datetime) := by
  rcases hvt : validate_target df tgt with e | ti
  · simp only [detect, hvt] at hok
    exact absurd hok (by simp)
  · simp only [detect, hvt, Except.ok.injEq] at hok
    subst hok
    refine ⟨?_, ?_, ?_, ?_, ?_⟩
    · intro c hc
      dsimp only at hc ⊢
      simp at hc
      exact ⟨hc.2.1.1, hc.2.2, hc.2.1.2⟩
    · intro habs
      dsimp only at habs
      simp [detect_ordinal_columns, List.mem_filter] at habs
    · intro c hc
      dsimp only at hc ⊢
      simp [split_categorical_by_missing, List.mem_filter] at hc
      refine ⟨?_, hc.2.2.1, hc.2.2.2⟩
      intro habs
      simp [split_categorical_by_missing, List.mem_filter] at habs
      exact absurd habs.2.1 (not_lt.mpr hc.2.1)
    · intro c hc
      dsimp only at hc ⊢
      simp [split_categorical_by_missing, List.mem_filter] at hc
      exact ⟨hc.2.2.1, hc.2.2.2⟩
    · intro c hc
      dsimp only at hc ⊢
      have hnum : c ∈ detect_numeric_columns df := by
        rcases hc with h | h
        · exact List.mem_of_mem_filter h
        · unfold detect_ordinal_columns at h
          exact List.mem_of_mem_filter h
      obtain ⟨colA, hA, hAn, hAd⟩ := col_of_mem_numeric hnum
      have hobj : ∀ colB ∈ df, colB.name = c → colB.dtype = Dtype.obj → False := by
        intro colB hB hBn hBd
        have heq := column_unique_of_nodup hnd hA hB (hAn.trans hBn.symm)
        rw [heq, hBd] at hAd
        simp [isNumericDtype] at hAd
      refine ⟨?_, ?_, ?_, ?_⟩
      · intro habs
        simp [split_categorical_by_missing, List.mem_filter] at habs
        obtain ⟨colB, hB, hBn, hBd⟩ := col_of_mem_categorical habs.1
        exact hobj colB hB hBn hBd
      · intro habs
        simp [split_categorical_by_missing, List.mem_filter] at habs
        obtain ⟨colB, hB, hBn, hBd⟩ := col_of_mem_categorical habs.1
        exact hobj colB hB hBn hBd
      · intro habs
        obtain ⟨colB, hB, hBn, hBd⟩ := col_of_mem_high_cardinality habs
        exact hobj colB hB hBn hBd
      · intro habs
        obtain ⟨colB, hB, hBn, hBd⟩ := col_of_mem_datetime habs
        exact hobj colB hB hBn hBd

/-- Concrete frame for the C1 witness. -/
def dfW1 : Df :=
  [⟨"t", Dtype.int64, [Cell.num 0, Cell.num 1]⟩]

/-- The schema `detect dfW1 "t"` returns. -/
def schemaW1 : Schema :=
  { target := "t"
    task_type := "classification"
    numeric := []
    ordinal := []
    categorical := []
    high_missing_categorical := []
    high_cardinality_columns := []
    id_columns := []
    datetime := []
    warnings := ["Target treated as classification due to low cardinality (n=2)."] }

/-- Witness for C1 (amended) at the concrete frame `dfW1`. -/
theorem c1_role_partition_amended_witness :
    (∀ c, c ∈ schemaW1.numeric →
      c ∉ schemaW1.ordinal ∧ c ∉ schemaW1.id_columns ∧ c ≠ "t") ∧
    "t" ∉ schemaW1.ordinal ∧
    (∀ c, c ∈ schemaW1.categorical →
      c ∉ schemaW1.high_missing_categorical ∧
      c ∉ schemaW1.high_cardinality_columns ∧ c ∉ schemaW1.id_columns) ∧
    (∀ c, c ∈ schemaW1.high_missing_categorical →
      c ∉ schemaW1.high_cardinality_columns ∧ c ∉ schemaW1.id_columns) ∧
    (∀ c, c ∈ schemaW1.numeric ∨ c ∈ schemaW1.ordinal →
      c ∉ schemaW1.categorical ∧ c ∉ schemaW1.high_missing_categorical ∧
      c ∉ schemaW1.high_cardinality_columns ∧ c ∉ schemaW1.datetime) :=
  c1_role_partition_amended dfW1 "t" schemaW1 (by decide) (by rfl)

-- --------------------------------------------------
-- Claim C3: cleaning preserves the target column
-- --------------------------------------------------


def columnsNamed (df : Df) (t : String) : List (List Cell) :=
  (df.filter (fun c => c.name == t)).map (fun c => c.cells)

lemma columnsNamed_cons (c : Column) (cs : List Column) (t : String) :
    columnsNamed (c :: cs) t =
      if c.name = t then c.cells :: columnsNamed cs t else columnsNamed cs t := by
  simp only [columnsNamed, List.filter_cons]
  by_cases h : c.name = t <;> simp [h]

lemma columnsNamed_filter (df : Df) (p : Column → Bool) (t : String)
    (hp : ∀ c : Column, c.name = t → p c = true) :
    columnsNamed (df.filter p) t = columnsNamed df t := by
  induction df with
  | nil => rfl
  | cons c cs ih =>
      rw [List.filter_cons]
      by_cases hct : c.name = t
      · rw [if_pos (hp c hct), columnsNamed_cons, if_pos hct,
          columnsNamed_cons, if_pos hct, ih]
      · by_cases hpc : p c = true
        · rw [if_pos hpc, columnsNamed_cons, if_neg hct,
            columnsNamed_cons, if_neg hct, ih]
        · rw [if_neg hpc, columnsNamed_cons c cs t, if_neg hct, ih]

lemma columnsNamed_map (df : Df) (f : Column → Column) (t : String)
    (hname : ∀ c, (f c).name = c.name)
    (hfix : ∀ c : Column, c.name = t → f c = c) :
    columnsNamed (df.map f) t = columnsNamed df t := by
  induction df with
  | nil => rfl
  | cons c cs ih =>
      rw [List.map_cons, columnsNamed_cons, columnsNamed_cons, hname]
      by_cases hct : c.name = t
      · rw [if_pos hct, if_pos hct, hfix c hct, ih]
      · rw [if_neg hct, if_neg hct, ih]

lemma columnsNamed_exceptMap (t : String) (g : Column → Except String Column) :
    ∀ (df df' : Df),
    (∀ c c', g c = Except.ok c' → c'.name = c.name ∧ (c.name = t → c' = c)) →
    exceptMap g df = Except.ok df' →
    columnsNamed df' t = columnsNamed df t := by
  intro df
  induction df with
  | nil =>
      intro df' _ h
      simp only [exceptMap, Except.ok.injEq] at h
      subst h; rfl
  | cons c cs ih =>
      intro df' hg h
      simp only [exceptMap] at h
      rcases hgc : g c with e | c'
      · rw [hgc] at h; exact absurd h (by simp)
      · rw [hgc] at h
        rcases hrest : exceptMap g cs with e | cs'
        · rw [hrest] at h; exact absurd h (by simp)
        · rw [hrest] at h
          simp only [Except.ok.injEq] at h
          subst h
          obtain ⟨hn, hfix⟩ := hg c c' hgc
          rw [columnsNamed_cons, columnsNamed_cons, hn]
          by_cases hct : c.name = t
          · rw [if_pos hct, if_pos hct, hfix hct, ih cs' hg hrest]
          · rw [if_neg hct, if_neg hct, ih cs' hg hrest]

lemma fixOutlierCol_name (c : Column) : (fixOutlierCol c).name = c.name := by
  unfold fixOutlierCol
  cases h1 : quantileQ (obsVals c.cells) ((1 : ℚ) / 4) with
  | none => rfl
  | some q1 =>
      cases h3 : quantileQ (obsVals c.cells) ((3 : ℚ) / 4) with
      | none => rfl
      | some q3 =>
          dsimp only
          split_ifs with hiqr hcount
          · rfl
          · cases hm : medianCells c.cells <;> rfl
          · rfl

/-- C3 (confirmed).  Whenever `DataCleaner.clean` succeeds, the sequence of
cell values of every column named like the target is identical (same
values, same order, same length) in the cleaned and in the input frame:
ID-dropping keeps target-named columns, and imputation, type casting and
outlier capping all skip any column whose name equals the target. -/
theorem c3_target_preserved (df : Df) (s : Schema) (df' : Df)
    (hok : clean df s = Except.ok df') :
    columnsNamed df' s.target = columnsNamed df s.target := by
  unfold clean at hok
  by_cases htgt : s.target ∈ columnNames df
  · rw [if_pos htgt] at hok
    dsimp only at hok
    rcases hmv : handle_missing_values s (drop_id_columns s df) with e | d3
    · rw [hmv] at hok; exact absurd hok (by simp)
    · rw [hmv] at hok
      simp only [Except.ok.injEq] at hok
      subst hok
      have h5 : columnsNamed (fix_outliers s (fix_column_types s d3)) s.target =
          columnsNamed (fix_column_types s d3) s.target := by
        apply columnsNamed_map
        · intro c
          split
          · exact fixOutlierCol_name c
          · rfl
        · intro c hct
          rw [if_neg (by simp [hct])]
      have h4 : columnsNamed (fix_column_types s d3) s.target =
          columnsNamed d3 s.target := by
        unfold fix_column_types fix_types_datetime fix_types_categorical fix_types_numeric
        rw [columnsNamed_map, columnsNamed_map, columnsNamed_map]
        · intro c; split <;> rfl
        · intro c hct; rw [if_neg (by simp [hct])]
        · intro c; split <;> rfl
        · intro c hct; rw [if_neg (by simp [hct])]
        · intro c; split <;> rfl
        · intro c hct; rw [if_neg (by simp [hct])]
      have h3 : columnsNamed d3 s.target =
          columnsNamed (drop_id_columns s df) s.target := by
        unfold handle_missing_values at hmv
        have h3b := columnsNamed_exceptMap s.target _
          (handle_missing_numeric s (drop_id_columns s df)) d3 ?_ hmv
        · rw [h3b]
          unfold handle_missing_numeric
          apply columnsNamed_map
          · intro c
            split
            · cases hm : medianCells c.cells <;> rfl
            · rfl
          · intro c hct
            rw [if_neg (by simp [hct])]
        · intro c c' hgc
          by_cases hcond : (s.categorical.contains c.name &&
              decide (c.name ≠ s.target) && decide (naCount c.cells > 0)) = true
          · rw [if_pos hcond] at hgc
            cases hm : modeFirst c.cells with
            | none => rw [hm] at hgc; exact absurd hgc (by simp)
            | some m =>
                rw [hm] at hgc
                simp only [Except.ok.injEq] at hgc
                subst hgc
                refine ⟨rfl, ?_⟩
                intro hct
                simp [hct] at hcond
          · rw [if_neg hcond] at hgc
            simp only [Except.ok.injEq] at hgc
            subst hgc
            exact ⟨rfl, fun _ => rfl⟩
      have h2 : columnsNamed (drop_id_columns s df) s.target =
          columnsNamed df s.target := by
        unfold drop_id_columns
        apply columnsNamed_filter
        intro c hct
        simp [hct, List.mem_filter]
      rw [h5, h4, h3, h2]
  · rw [if_neg htgt] at hok
    exact absurd hok (by simp)

/-- Concrete frame for the C3 witness. -/
def dfW3 : Df :=
  [⟨"cid", Dtype.int64, [Cell.num 1, Cell.num 2]⟩,
   ⟨"t", Dtype.int64, [Cell.num 5, Cell.num 6]⟩]

/-- Schema for the C3 witness: `cid` is an id column, `t` the target. -/
def schemaW3 : Schema :=
  { target := "t"
    task_type := "classification"
    numeric := []
    ordinal := []
    categorical := []
    high_missing_categorical := []
    high_cardinality_columns := []
    id_columns := ["cid"]
    datetime := []
    warnings := [] }

/-- Witness for C3 at the concrete frame `dfW3`: cleaning drops `cid` and
leaves the target column's values untouched. -/
theorem c3_target_preserved_witness :
    columnsNamed [⟨"t", Dtype.int64, [Cell.num 5, Cell.num 6]⟩] schemaW3.target =
      columnsNamed dfW3 schemaW3.target :=
  c3_target_preserved dfW3 schemaW3
    [⟨"t", Dtype.int64, [Cell.num 5, Cell.num 6]⟩] (by rfl)

-- --------------------------------------------------
-- Claim C7: outlier capping boundedness
-- --------------------------------------------------

lemma sorted_getD_mono {ys : List ℚ} (hys : ys.Sorted (· ≤ ·)) {i j : ℕ}
    (hij : i ≤ j) (hj : j < ys.length) : ys.getD i 0 ≤ ys.getD j 0 := by
  rcases eq_or_lt_of_le hij with rfl | hlt
  · exact le_refl _
  · have hi : i < ys.length := lt_trans hlt hj
    rw [List.getD_eq_getElem ys 0 hi, List.getD_eq_getElem ys 0 hj]
    have := List.pairwise_iff_get.mp hys ⟨i, hi⟩ ⟨j, hj⟩ hlt
    simpa using this

lemma interpAt_of_lt {ys : List ℚ} {h : ℚ} (hb : (⌊h⌋).toNat + 1 < ys.length) :
    interpAt ys h = ys.getD (⌊h⌋).toNat 0 +
      Int.fract h * (ys.getD ((⌊h⌋).toNat + 1) 0 - ys.getD (⌊h⌋).toNat 0) := by
  unfold interpAt
  rw [if_pos hb]

lemma interpAt_of_ge {ys : List ℚ} {h : ℚ}
    (hb : ¬ ((⌊h⌋).toNat + 1 < ys.length)) :
    interpAt ys h = ys.getD (ys.length - 1) 0 := by
  unfold interpAt
  rw [if_neg hb]

lemma interpAt_le_getD_succ {ys : List ℚ} (hys : ys.Sorted (· ≤ ·)) {h : ℚ}
    (hb : (⌊h⌋).toNat + 1 < ys.length) :
    interpAt ys h ≤ ys.getD ((⌊h⌋).toNat + 1) 0 := by
  rw [interpAt_of_lt hb]
  have hd : (0:ℚ) ≤ ys.getD ((⌊h⌋).toNat + 1) 0 - ys.getD (⌊h⌋).toNat 0 :=
    sub_nonneg.mpr (sorted_getD_mono hys (Nat.le_succ _) hb)
  have hfr : Int.fract h ≤ 1 := le_of_lt (Int.fract_lt_one h)
  nlinarith [mul_le_mul_of_nonneg_right hfr hd]

lemma getD_le_interpAt {ys : List ℚ} (hys : ys.Sorted (· ≤ ·)) {h : ℚ}
    (hb : (⌊h⌋).toNat + 1 < ys.length) :
    ys.getD (⌊h⌋).toNat 0 ≤ interpAt ys h := by
  rw [interpAt_of_lt hb]
  have hd : (0:ℚ) ≤ ys.getD ((⌊h⌋).toNat + 1) 0 - ys.getD (⌊h⌋).toNat 0 :=
    sub_nonneg.mpr (sorted_getD_mono hys (Nat.le_succ _) hb)
  nlinarith [Int.fract_nonneg h]

/-- Piecewise-linear interpolation over a sorted list is monotone in the
position, the key property behind Q1 ≤ median ≤ Q3. -/
lemma interpAt_mono {ys : List ℚ} (hys : ys.Sorted (· ≤ ·)) (hne : ys ≠ [])
    {h1 h2 : ℚ} (h0 : 0 ≤ h1) (h12 : h1 ≤ h2) :
    interpAt ys h1 ≤ interpAt ys h2 := by
  have hn : 0 < ys.length := List.length_pos.mpr hne
  have h0' : 0 ≤ h2 := le_trans h0 h12
  have hf12 : (⌊h1⌋).toNat ≤ (⌊h2⌋).toNat :=
    Int.toNat_le_toNat (Int.floor_mono h12)
  by_cases hb1 : (⌊h1⌋).toNat + 1 < ys.length
  · by_cases hb2 : (⌊h2⌋).toNat + 1 < ys.length
    · by_cases hf : (⌊h1⌋).toNat = (⌊h2⌋).toNat
      · have hfl : ⌊h1⌋ = ⌊h2⌋ := by
          have e1 := Int.toNat_of_nonneg (Int.floor_nonneg.mpr h0)
          have e2 := Int.toNat_of_nonneg (Int.floor_nonneg.mpr h0')
          omega
        have hfr : Int.fract h1 ≤ Int.fract h2 := by
          unfold Int.fract
          rw [hfl]
          linarith
        rw [interpAt_of_lt hb1, interpAt_of_lt hb2, ← hf]
        have hd : (0:ℚ) ≤ ys.getD ((⌊h1⌋).toNat + 1) 0 - ys.getD (⌊h1⌋).toNat 0 :=
          sub_nonneg.mpr (sorted_getD_mono hys (Nat.le_succ _) hb1)
        have := mul_le_mul_of_nonneg_right hfr hd
        linarith
      · have hflt : (⌊h1⌋).toNat < (⌊h2⌋).toNat := lt_of_le_of_ne hf12 hf
        calc interpAt ys h1 ≤ ys.getD ((⌊h1⌋).toNat + 1) 0 :=
              interpAt_le_getD_succ hys hb1
          _ ≤ ys.getD (⌊h2⌋).toNat 0 := sorted_getD_mono hys hflt (by omega)
          _ ≤ interpAt ys h2 := getD_le_interpAt hys hb2
    · calc interpAt ys h1 ≤ ys.getD ((⌊h1⌋).toNat + 1) 0 :=
            interpAt_le_getD_succ hys hb1
        _ ≤ ys.getD (ys.length - 1) 0 :=
            sorted_getD_mono hys (by omega) (by omega)
        _ = interpAt ys h2 := (interpAt_of_ge hb2).symm
  · have hb2 : ¬ ((⌊h2⌋).toNat + 1 < ys.length) := by omega
    rw [interpAt_of_ge hb1, interpAt_of_ge hb2]

lemma quantileQ_eq_some {xs : List ℚ} (hne : xs ≠ []) (q : ℚ) :
    ∃ v, quantileQ xs q = some v := by
  cases xs with
  | nil => exact absurd rfl hne
  | cons x xs' => exact ⟨_, rfl⟩

/-- The linear-interpolation quantile is monotone in the probability. -/
lemma quantileQ_mono {xs : List ℚ} {q1 q2 a b : ℚ} (h0 : 0 ≤ q1) (h12 : q1 ≤ q2)
    (ha : quantileQ xs q1 = some a) (hb : quantileQ xs q2 = some b) : a ≤ b := by
  cases xs with
  | nil => simp [quantileQ] at ha
  | cons x xs' =>
      simp only [quantileQ, Option.some.injEq] at ha hb
      subst ha
      subst hb
      have hsorted : ((x :: xs').insertionSort (· ≤ ·)).Sorted (· ≤ ·) :=
        List.sorted_insertionSort _ _
      have hlen : ((x :: xs').insertionSort (· ≤ ·)).length = (x :: xs').length :=
        (List.perm_insertionSort _ _).length_eq
      have hne : ((x :: xs').insertionSort (· ≤ ·)) ≠ [] := by
        intro habs
        rw [habs] at hlen
        simp at hlen
      have hfac : (0:ℚ) ≤ ((x :: xs').length : ℚ) - 1 := by
        have h1 : (1:ℚ) ≤ ((x :: xs').length : ℚ) := by
          exact_mod_cast Nat.succ_le_of_lt (List.length_pos.mpr (by simp))
        linarith
      exact interpAt_mono hsorted hne (mul_nonneg h0 hfac)
        (mul_le_mul_of_nonneg_right h12 hfac)

/-- The core behaviour of `_fix_outliers` on one column: skip on zero IQR;
otherwise every numeric value in the output lies inside the pre-capping
fences, because kept values were inside them by the filter condition and
replaced values equal the median, which sits between Q1 and Q3. -/
lemma fixOutlierCol_spec (c : Column) {q1 q3 : ℚ}
    (h1 : quantileQ (obsVals c.cells) ((1:ℚ)/4) = some q1)
    (h3 : quantileQ (obsVals c.cells) ((3:ℚ)/4) = some q3) :
    (q3 - q1 = 0 → fixOutlierCol c = c) ∧
    (q3 - q1 ≠ 0 → ∀ q : ℚ, Cell.num q ∈ (fixOutlierCol c).cells →
      q1 - 3/2 * (q3 - q1) ≤ q ∧ q ≤ q3 + 3/2 * (q3 - q1)) := by
  have hobs : obsVals c.cells ≠ [] := by
    intro h
    rw [h] at h1
    simp [quantileQ] at h1
  have hq13 : q1 ≤ q3 := quantileQ_mono (by norm_num) (by norm_num) h1 h3
  obtain ⟨m, hm⟩ := quantileQ_eq_some hobs ((1:ℚ)/2)
  have hq1m : q1 ≤ m := quantileQ_mono (by norm_num) (by norm_num) h1 hm
  have hmq3 : m ≤ q3 := quantileQ_mono (by norm_num) (by norm_num) hm h3
  have hmed : medianCells c.cells = some m := hm
  unfold fixOutlierCol
  rw [h1, h3]
  dsimp only
  constructor
  · intro hz
    rw [if_pos hz]
  · intro hnz q hq
    rw [if_neg hnz] at hq
    have hiqr : 0 < q3 - q1 := lt_of_le_of_ne (by linarith) (Ne.symm hnz)
    have hml : q1 - 3/2 * (q3 - q1) ≤ m := by linarith
    have hmu : m ≤ q3 + 3/2 * (q3 - q1) := by linarith
    by_cases hcnt : outlierCount c.cells (q1 - 3/2 * (q3 - q1))
        (q3 + 3/2 * (q3 - q1)) > 0
    · rw [if_pos hcnt, hmed] at hq
      dsimp only at hq
      obtain ⟨x1, hx1, hcap⟩ := List.mem_map.mp hq
      obtain ⟨x0, hx0, hlow⟩ := List.mem_map.mp hx1
      subst hlow
      cases x0 with
      | na => simp [capLow, capHigh] at hcap
      | str sv => simp [capLow, capHigh] at hcap
      | date dv => simp [capLow, capHigh] at hcap
      | num q0 =>
          by_cases hlt : q0 < q1 - 3/2 * (q3 - q1)
          · rw [capLow, if_pos hlt] at hcap
            rw [capHigh, if_neg (not_lt.mpr hmu)] at hcap
            simp only [Cell.num.injEq] at hcap
            subst hcap
            exact ⟨hml, hmu⟩
          · rw [capLow, if_neg hlt] at hcap
            by_cases hgt : q3 + 3/2 * (q3 - q1) < q0
            · rw [capHigh, if_pos hgt] at hcap
              simp only [Cell.num.injEq] at hcap
              subst hcap
              exact ⟨hml, hmu⟩
            · rw [capHigh, if_neg hgt] at hcap
              simp only [Cell.num.injEq] at hcap
              subst hcap
              exact ⟨not_lt.mp hlt, not_lt.mp hgt⟩
    · rw [if_neg hcnt] at hq
      have hzero : outlierCount c.cells (q1 - 3/2 * (q3 - q1))
          (q3 + 3/2 * (q3 - q1)) = 0 := by omega
      unfold outlierCount at hzero
      rw [List.length_eq_zero, List.filter_eq_nil_iff] at hzero
      have := hzero (Cell.num q) hq
      simp only [decide_eq_true_eq] at this
      push_neg at this
      exact this

/-- C7 (confirmed).  For every schema-numeric feature column `c` of the
frame, `_fix_outliers` maps it to `fixOutlierCol c`; if the pre-capping
IQR = Q3 − Q1 is nonzero, every numeric value of the capped column lies
within [Q1 − 1.5·IQR, Q3 + 1.5·IQR] computed before capping
(out-of-fence values having been replaced by the pre-capping median),
and if the IQR is zero the column is left unchanged. -/
theorem c7_outlier_capping (s : Schema) (df : Df) (c : Column)
    (hc : c ∈ df) (hname : c.name ∈ s.numeric) (hnt : c.name ≠ s.target)
    {q1 q3 : ℚ}
    (h1 : quantileQ (obsVals c.cells) ((1:ℚ)/4) = some q1)
    (h3 : quantileQ (obsVals c.cells) ((3:ℚ)/4) = some q3) :
    fixOutlierCol c ∈ fix_outliers s df ∧
    (q3 - q1 = 0 → fixOutlierCol c = c) ∧
    (q3 - q1 ≠ 0 → ∀ q : ℚ, Cell.num q ∈ (fixOutlierCol c).cells →
      q1 - 3/2 * (q3 - q1) ≤ q ∧ q ≤ q3 + 3/2 * (q3 - q1)) := by
  obtain ⟨hz, hnz⟩ := fixOutlierCol_spec c h1 h3
  refine ⟨?_, hz, hnz⟩
  unfold fix_outliers
  have heq : (if s.numeric.contains c.name && decide (c.name ≠ s.target)
      then fixOutlierCol c else c) = fixOutlierCol c := by
    rw [if_pos]
    simp [hname, hnt]
  rw [← heq]
  exact List.mem_map_of_mem _ hc

/-- Column for the C7 witness: Q1 = 7/4, Q3 = 109/4, so 100 is an outlier. -/
def colW7 : Column :=
  ⟨"amount", Dtype.float64, [Cell.num 1, Cell.num 2, Cell.num 3, Cell.num 100]⟩

/-- Concrete frame for the C7 witness. -/
def dfW7 : Df :=
  [colW7, ⟨"t", Dtype.int64, [Cell.num 0, Cell.num 1, Cell.num 0, Cell.num 1]⟩]

/-- Schema for the C7 witness: `amount` is a numeric feature, `t` the
target. -/
def schemaW7 : Schema :=
  { target := "t"
    task_type := "classification"
    numeric := ["amount"]
    ordinal := []
    categorical := []
    high_missing_categorical := []
    high_cardinality_columns := []
    id_columns := []
    datetime := []
    warnings := [] }

/-- Witness for C7 at the concrete column `colW7` (nonzero IQR). -/
theorem c7_outlier_capping_witness :
    fixOutlierCol colW7 ∈ fix_outliers schemaW7 dfW7 ∧
    ((109/4 : ℚ) - 7/4 = 0 → fixOutlierCol colW7 = colW7) ∧
    ((109/4 : ℚ) - 7/4 ≠ 0 → ∀ q : ℚ, Cell.num q ∈ (fixOutlierCol colW7).cells →
      (7/4 : ℚ) - 3/2 * (109/4 - 7/4) ≤ q ∧ q ≤ 109/4 + 3/2 * (109/4 - 7/4)) := by
  have hobs : obsVals colW7.cells = [1, 2, 3, 100] := by decide
  have hsort : ([1, 2, 3, 100] : List ℚ).insertionSort (· ≤ ·) =
      [1, 2, 3, 100] := by decide
  have h1 : quantileQ (obsVals colW7.cells) ((1:ℚ)/4) = some (7/4) := by
    rw [hobs]
    simp only [quantileQ, hsort]
    have hq : (1:ℚ)/4 * (([1, 2, 3, 100] : List ℚ).length - 1) = 3/4 := by
      norm_num
    rw [hq]
    have hfl : (⌊(3:ℚ)/4⌋ : ℤ) = 0 := by
      rw [Int.floor_eq_iff]
      norm_num
    rw [interpAt, hfl]
    norm_num [Int.fract, hfl]
  have h3 : quantileQ (obsVals colW7.cells) ((3:ℚ)/4) = some (109/4) := by
    rw [hobs]
    simp only [quantileQ, hsort]
    have hq : (3:ℚ)/4 * (([1, 2, 3, 100] : List ℚ).length - 1) = 9/4 := by
      norm_num
    rw [hq]
    have hfl : (⌊(9:ℚ)/4⌋ : ℤ) = 2 := by
      rw [Int.floor_eq_iff]
      norm_num
    rw [interpAt, hfl]
    norm_num [Int.fract, hfl, List.getD, show Int.toNat 2 = 2 from rfl]
  exact c7_outlier_capping schemaW7 dfW7 colW7 (by decide) (by decide)
    (by decide) h1 h3

-- --------------------------------------------------
-- Claim C4: imputation completeness
-- --------------------------------------------------


/-- Every cell of the list is a numeric value. -/
def allNum (cells : List Cell) : Prop := ∀ x ∈ cells, ∃ q, x = Cell.num q

/-- Every cell of the list is a string value. -/
def allStr (cells : List Cell) : Prop := ∀ x ∈ cells, ∃ v, x = Cell.str v

lemma exceptMap_mem_decomp {g : Column → Except String Column} :
    ∀ {df df' : Df}, exceptMap g df = Except.ok df' →
    ∀ c' ∈ df', ∃ c ∈ df, g c = Except.ok c' := by
  intro df
  induction df with
  | nil =>
      intro df' h c' hc'
      simp only [exceptMap, Except.ok.injEq] at h
      subst h
      simp at hc'
  | cons c cs ih =>
      intro df' h c' hc'
      simp only [exceptMap] at h
      rcases hgc : g c with e | c1
      · rw [hgc] at h; exact absurd h (by simp)
      · rw [hgc] at h
        rcases hrest : exceptMap g cs with e | cs' <;> rw [hrest] at h
        · exact absurd h (by simp)
        · simp only [Except.ok.injEq] at h
          subst h
          rcases List.mem_cons.mp hc' with rfl | hmem
          · exact ⟨c, List.mem_cons_self c cs, hgc⟩
          · obtain ⟨c0, hc0, hg0⟩ := ih hrest c' hmem
            exact ⟨c0, List.mem_cons_of_mem c hc0, hg0⟩

lemma map_name_prop {d : Df} {f : Column → Column} {col : String}
    (hname : ∀ c, (f c).name = c.name) (P : Column → Prop)
    (h : ∀ c ∈ d, c.name = col → P (f c)) :
    ∀ c' ∈ d.map f, c'.name = col → P c' := by
  intro c' hc' hn
  obtain ⟨c, hc, rfl⟩ := List.mem_map.mp hc'
  exact h c hc (by rw [← hname c]; exact hn)

lemma fixOutlierCol_allNum {c : Column} (h : allNum c.cells) :
    allNum (fixOutlierCol c).cells := by
  unfold fixOutlierCol
  cases h1 : quantileQ (obsVals c.cells) ((1 : ℚ) / 4) with
  | none => exact h
  | some q1 =>
      cases h3 : quantileQ (obsVals c.cells) ((3 : ℚ) / 4) with
      | none => exact h
      | some q3 =>
          dsimp only
          split_ifs with hiqr hcount
          · exact h
          · cases hm : medianCells c.cells with
            | none => exact h
            | some m =>
                intro x hx
                obtain ⟨x1, hx1, hcap⟩ := List.mem_map.mp hx
                obtain ⟨x0, hx0, hlow⟩ := List.mem_map.mp hx1
                obtain ⟨q0, rfl⟩ := h x0 hx0
                subst hlow
                subst hcap
                rw [capLow]
                by_cases hl : q0 < q1 - 3 / 2 * (q3 - q1)
                · rw [if_pos hl, capHigh]
                  by_cases hg : q3 + 3 / 2 * (q3 - q1) < m
                  · rw [if_pos hg]; exact ⟨m, rfl⟩
                  · rw [if_neg hg]; exact ⟨m, rfl⟩
                · rw [if_neg hl, capHigh]
                  by_cases hg : q3 + 3 / 2 * (q3 - q1) < q0
                  · rw [if_pos hg]; exact ⟨m, rfl⟩
                  · rw [if_neg hg]; exact ⟨q0, rfl⟩
          · exact h



/-- C4 (amended).  After a successful `clean`, a feature column listed only
in the schema's `numeric` group (with numeric-or-missing cells, at least
one of them observed) contains no missing values — it was filled with its
median and no later step reintroduces missing values — and a feature
column listed only in the `categorical` group contains no missing values
— mode imputation plus the unconditional `astype(str)` cast leave only
strings.  (The original claim fails for `ordinal` columns, which
`_handle_missing_values` never touches: see the counterexample.) -/
theorem c4_imputation_amended (df : Df) (s : Schema) (df' : Df) (col : String)
    (hok : clean df s = Except.ok df')
    (hnt : col ≠ s.target) (hndt : col ∉ s.datetime) :
    ((col ∈ s.numeric ∧ col ∉ s.categorical ∧
      (∀ c ∈ df, c.name = col →
        (∃ q, Cell.num q ∈ c.cells) ∧
        (∀ x ∈ c.cells, x = Cell.na ∨ ∃ q, x = Cell.num q))) →
      ∀ c ∈ df', c.name = col → Cell.na ∉ c.cells) ∧
    ((col ∈ s.categorical ∧ col ∉ s.numeric) →
      ∀ c ∈ df', c.name = col → Cell.na ∉ c.cells) := by
  unfold clean at hok
  by_cases htgt : s.target ∈ columnNames df
  · rw [if_pos htgt] at hok
    dsimp only at hok
    rcases hmv : handle_missing_values s (drop_id_columns s df) with e | d3
    · rw [hmv] at hok; exact absurd hok (by simp)
    · rw [hmv] at hok
      simp only [Except.ok.injEq] at hok
      subst hok
      unfold handle_missing_values at hmv
      constructor
      · rintro ⟨hcn, hcc, hcells⟩
        have hB : ∀ c ∈ handle_missing_numeric s (drop_id_columns s df),
            c.name = col → allNum c.cells := by
          unfold handle_missing_numeric
          apply map_name_prop
          · intro c
            split
            · cases hm : medianCells c.cells <;> rfl
            · rfl
          · intro c hc hcname
            have hcdf : c ∈ df := List.mem_of_mem_filter hc
            obtain ⟨⟨q0, hq0⟩, hna⟩ := hcells c hcdf hcname
            by_cases hcnt : naCount c.cells > 0
            · rw [if_pos (by simp [hcname, hcn, hnt, hcnt])]
              have hobs : obsVals c.cells ≠ [] := by
                intro habs
                have hmem := mem_obsVals hq0
                rw [habs] at hmem
                simp at hmem
              obtain ⟨m, hm⟩ := quantileQ_eq_some hobs ((1:ℚ)/2)
              have hm' : medianCells c.cells = some m := hm
              rw [hm']
              intro x hx
              obtain ⟨x0, hx0, rfl⟩ := List.mem_map.mp hx
              rcases hna x0 hx0 with rfl | ⟨q, rfl⟩
              · exact ⟨m, rfl⟩
              · exact ⟨q, rfl⟩
            · rw [if_neg (by simp [hcnt])]
              intro x hx
              rcases hna x hx with rfl | ⟨q, rfl⟩
              · have hz : naCount c.cells = 0 := by omega
                exact absurd rfl ((naCount_eq_zero_iff.mp hz) Cell.na hx)
              · exact ⟨q, rfl⟩
        have hC : ∀ c ∈ d3, c.name = col → allNum c.cells := by
          intro c' hc' hn
          obtain ⟨c, hc, hg⟩ := exceptMap_mem_decomp hmv c' hc'
          by_cases hcond : (s.categorical.contains c.name &&
              decide (c.name ≠ s.target) && decide (naCount c.cells > 0)) = true
          · cases hmode : modeFirst c.cells with
            | none =>
                rw [if_pos hcond, hmode] at hg
                exact absurd hg (by simp)
            | some m =>
                rw [if_pos hcond, hmode] at hg
                simp only [Except.ok.injEq] at hg
                subst hg
                exfalso
                simp only [Bool.and_eq_true, decide_eq_true_eq] at hcond
                have : c.name ∈ s.categorical := by
                  have := hcond.1.1
                  simpa using this
                rw [hn] at this
                exact hcc this
          · rw [if_neg hcond] at hg
            simp only [Except.ok.injEq] at hg
            subst hg
            exact hB c hc hn
        have hD : ∀ c ∈ fix_types_numeric s d3, c.name = col → allNum c.cells := by
          unfold fix_types_numeric
          apply map_name_prop
          · intro c; split <;> rfl
          · intro c hc hn
            rw [if_pos (by simp [hn, hcn, hnt])]
            intro x hx
            obtain ⟨x0, hx0, rfl⟩ := List.mem_map.mp hx
            obtain ⟨q, rfl⟩ := hC c hc hn x0 hx0
            exact ⟨q, rfl⟩
        have hE : ∀ c ∈ fix_types_categorical s (fix_types_numeric s d3),
            c.name = col → allNum c.cells := by
          unfold fix_types_categorical
          apply map_name_prop
          · intro c; split <;> rfl
          · intro c hc hn
            rw [if_neg (by simp [hn, hcc])]
            exact hD c hc hn
        have hF : ∀ c ∈ fix_column_types s d3, c.name = col → allNum c.cells := by
          unfold fix_column_types fix_types_datetime
          apply map_name_prop
          · intro c; split <;> rfl
          · intro c hc hn
            rw [if_neg (by simp [hn, hndt])]
            exact hE c hc hn
        have hG : ∀ c ∈ fix_outliers s (fix_column_types s d3),
            c.name = col → allNum c.cells := by
          unfold fix_outliers
          apply map_name_prop
          · intro c
            split
            · exact fixOutlierCol_name c
            · rfl
          · intro c hc hn
            split
            · exact fixOutlierCol_allNum (hF c hc hn)
            · exact hF c hc hn
        intro c hc hn habs
        obtain ⟨q, hq⟩ := hG c hc hn Cell.na habs
        exact absurd hq (by simp)
      · rintro ⟨hcc, hcn⟩
        have hE : ∀ c ∈ fix_types_categorical s (fix_types_numeric s d3),
            c.name = col → allStr c.cells := by
          unfold fix_types_categorical
          apply map_name_prop
          · intro c; split <;> rfl
          · intro c hc hn
            rw [if_pos (by simp [hn, hcc, hnt])]
            intro x hx
            obtain ⟨x0, hx0, rfl⟩ := List.mem_map.mp hx
            exact ⟨_, rfl⟩
        have hF : ∀ c ∈ fix_column_types s d3, c.name = col → allStr c.cells := by
          unfold fix_column_types fix_types_datetime
          apply map_name_prop
          · intro c; split <;> rfl
          · intro c hc hn
            rw [if_neg (by simp [hn, hndt])]
            exact hE c hc hn
        have hG : ∀ c ∈ fix_outliers s (fix_column_types s d3),
            c.name = col → allStr c.cells := by
          unfold fix_outliers
          apply map_name_prop
          · intro c
            split
            · exact fixOutlierCol_name c
            · rfl
          · intro c hc hn
            rw [if_neg (by simp [hn, hcn])]
            exact hF c hc hn
        intro c hc hn habs
        obtain ⟨v, hv⟩ := hG c hc hn Cell.na habs
        exact absurd hv (by simp)
  · rw [if_neg htgt] at hok
    exact absurd hok (by simp)



/-- Concrete frame for the C4 witness. -/
def dfW4 : Df :=
  [⟨"city", Dtype.obj, [Cell.str "b", Cell.na]⟩,
   ⟨"t", Dtype.int64, [Cell.num 0, Cell.num 1]⟩]

/-- Schema for the C4 witness: `city` is a categorical feature. -/
def schemaW4 : Schema :=
  { target := "t"
    task_type := "classification"
    numeric := []
    ordinal := []
    categorical := ["city"]
    high_missing_categorical := []
    high_cardinality_columns := []
    id_columns := []
    datetime := []
    warnings := [] }

/-- `clean dfW4 schemaW4`: the missing `city` cell was filled with the
mode. -/
def dfW4c : Df :=
  [⟨"city", Dtype.obj, [Cell.str "b", Cell.str "b"]⟩,
   ⟨"t", Dtype.int64, [Cell.num 0, Cell.num 1]⟩]

/-- C4 (counterexample).  The claim says every surviving feature column in
the numeric, ordinal or categorical role groups is missing-free after
cleaning.  On `dfC4`, the schema puts `rank` in the ordinal group, yet
`_handle_missing_values` iterates only over `schema["numeric"]` and
`schema["categorical"]`, so `clean` returns the frame unchanged and
`rank` still holds a missing cell. -/
theorem c4_imputation_counterexample :
    detect dfC4 "y" = Except.ok schemaC4 ∧
    "rank" ∈ schemaC4.ordinal ∧
    clean dfC4 schemaC4 = Except.ok dfC4 ∧
    (∃ c ∈ dfC4, c.name = "rank" ∧ Cell.na ∈ c.cells) :=
  ⟨by rfl, by decide, by rfl, by decide⟩

/-- Witness for C4 (amended) at the concrete frame `dfW4`. -/
theorem c4_imputation_amended_witness :
    (("city" ∈ schemaW4.numeric ∧ "city" ∉ schemaW4.categorical ∧
      (∀ c ∈ dfW4, c.name = "city" →
        (∃ q, Cell.num q ∈ c.cells) ∧
        (∀ x ∈ c.cells, x = Cell.na ∨ ∃ q, x = Cell.num q))) →
      ∀ c ∈ dfW4c, c.name = "city" → Cell.na ∉ c.cells) ∧
    (("city" ∈ schemaW4.categorical ∧ "city" ∉ schemaW4.numeric) →
      ∀ c ∈ dfW4c, c.name = "city" → Cell.na ∉ c.cells) :=
  c4_imputation_amended dfW4 schemaW4 dfW4c "city" (by rfl) (by decide) (by decide)


end CortexAI
